import Mathlib

/-!
Shallow embedding of the `pi-ext` interactive selection engine:
the searchable select list, the model-switcher wizard, the leader-key
chorded palette, the favourite-models quick picker, and the
enabled-model allow-list check.  Definitions are translated from
`src/extensions/leader-key/index.ts` (which embeds `model-switcher.ts`)
and `src/extensions/leader-key/favourite-models.ts`.
-/

namespace PiExt

/-! ## JavaScript string/array primitives used by the source

The source runs on a JavaScript engine; these model the builtins it uses.
Only ASCII text reaches these call sites, so `toLowerCase` is modelled on
ASCII letters via `Char.toLower`. -/

/-- Model of JavaScript `String.prototype.toLowerCase` (ASCII range). -/
def jsToLower (s : String) : String := ⟨s.data.map Char.toLower⟩

/-- Code-unit lexicographic comparison on character lists. -/
def lexLe : List Char → List Char → Bool
  | [], _ => true
  | _ :: _, [] => false
  | c :: cs, d :: ds => if c = d then lexLe cs ds else decide (c < d)

/-- Model of `a.localeCompare(b) ≤ 0` for the ASCII provider/model names the
source sorts: code-point lexicographic order. -/
def strLe (a b : String) : Bool := lexLe a.data b.data

/-- Stable insertion used by `sortBy`. -/
def insertBy (le : α → α → Bool) (x : α) : List α → List α
  | [] => [x]
  | y :: ys => if le y x then y :: insertBy le x ys else x :: y :: ys

/-- Model of JavaScript `Array.prototype.sort` with a total comparator:
a stable sort (insertion sort). -/
def sortBy (le : α → α → Bool) : List α → List α
  | [] => []
  | x :: xs => insertBy le x (sortBy le xs)

/-! ## Enabled-model allow-list (`getEnabledModelSet` / `isModelEnabled`)

From `model-switcher.ts`.  `isModelEnabled` builds, for each pattern that
contains `*` or `?`, the JavaScript regex
`"^" + pattern.replace(/[.+^${}()|[\]\\]/g, "\\$&").replace(/\*/g, ".*").replace(/\?/g, ".") + "$"`.
After escaping, every pattern character other than `*` and `?` matches
itself literally; `*` becomes `.*` and `?` becomes `.`, where the regex `.`
matches any character except a line terminator.  `globMatch` is exactly
that regex's matching relation. -/

/-- JavaScript regex `.` (no `s` flag): any character except a line
terminator (`\n`, `\r`, U+2028, U+2029). -/
def jsDot (c : Char) : Bool :=
  !(c == '\n' || c == '\r' || c == Char.ofNat 0x2028 || c == Char.ofNat 0x2029)

/-- One token of the regex built from an allow-list pattern. -/
inductive GlobTok where
  | lit (c : Char)
  | star
  | qmark
deriving DecidableEq, Repr

/-- Tokenise a pattern: `*` → `.*`, `?` → `.`, anything else literal
(the escaping step makes every other character literal). -/
def globToks (p : List Char) : List GlobTok :=
  p.map fun c => if c = '*' then .star else if c = '?' then .qmark else .lit c

/-- The suffixes of a string reachable by consuming a (possibly empty)
prefix of characters the regex `.` accepts — the continuation points of
a greedy-or-lazy `.*`. -/
def dotSuffixes : List Char → List (List Char)
  | [] => [[]]
  | d :: ds => (d :: ds) :: (if jsDot d then dotSuffixes ds else [])

/-- Matching of the anchored regex built from a pattern against a string:
a literal token consumes its own character, `.` (from `?`) consumes one
non-line-terminator character, and `.*` (from `*`) consumes any run of
non-line-terminator characters. -/
def globMatch : List GlobTok → List Char → Bool
  | [], s => s.isEmpty
  | .lit c :: ps, s =>
    match s with
    | [] => false
    | d :: ds => if c = d then globMatch ps ds else false
  | .qmark :: ps, s =>
    match s with
    | [] => false
    | d :: ds => if jsDot d then globMatch ps ds else false
  | .star :: ps, s => (dotSuffixes s).any fun t => globMatch ps t

/-- `getEnabledModelSet` from `model-switcher.ts`: lower-cases the
configured patterns; `none` (no filter) when the setting is absent or
empty.  The settings read is modelled by the `patterns` argument. -/
def getEnabledModelSet (patterns : Option (List String)) : Option (List String) :=
  match patterns with
  | none => none
  | some ps => if ps = [] then none else some (ps.map jsToLower)

/-- `isModelEnabled` from `model-switcher.ts`. -/
def isModelEnabled (provider modelId : String) (enabled : Option (List String)) : Bool :=
  match enabled with
  | none => true
  | some pats =>
    let key := jsToLower (provider ++ "/" ++ modelId)
    pats.contains key ||
      pats.any fun p =>
        (p.data.contains '*' || p.data.contains '?') && globMatch (globToks p.data) key.data

/-! ## Searchable select list (`searchableSelect` in `model-switcher.ts`)

The component's mutable closure state is `SelState`; each call of its
`handleInput(data)` is one step of `selHandleInput`.  The host library's
`matchesKey(data, k)` classifications of the raw input are modelled by the
`KeyMatches` record, and the raw `data` string is passed alongside for the
printable-character branch.  Indices are `Int` because JavaScript numbers
go negative here (e.g. `filteredItems.length - 1` on an empty list). -/

/-- One selectable item (`SearchableItem` in the source). -/
structure SearchableItem where
  value : String
  label : String
  description : Option String := none
deriving DecidableEq, Repr

/-- `MAX_VISIBLE` in the source: the visible window size. -/
def MAX_VISIBLE : Int := 15

/-- The closure state of one `searchableSelect` invocation. -/
structure SelState where
  searchText : String
  filteredItems : List SearchableItem
  highlightedIndex : Int
  scrollOffset : Int
deriving DecidableEq, Repr

/-- Results of `matchesKey(data, ·)` for one raw input event, as computed by
the host library `pi-tui` for each key the component tests. -/
structure KeyMatches where
  escape : Bool := false
  ctrlC : Bool := false
  backspace : Bool := false
  up : Bool := false
  down : Bool := false
  ctrlP : Bool := false
  ctrlN : Bool := false
  enter : Bool := false
deriving DecidableEq, Repr

/-- Initial state set up by `searchableSelect`: empty query, all items,
index and scroll at 0. -/
def selInit (items : List SearchableItem) : SelState :=
  { searchText := "", filteredItems := items, highlightedIndex := 0, scrollOffset := 0 }

/-- `applyFilter` from the source: empty query keeps the original items,
otherwise the fuzzy filter `ff` (the external `fuzzyFilter` of `pi-tui`)
is applied; index and scroll reset to 0. -/
def applyFilter (ff : List SearchableItem → String → List SearchableItem)
    (items : List SearchableItem) (s : SelState) : SelState :=
  { s with
    filteredItems := if s.searchText = "" then items else ff items s.searchText
    highlightedIndex := 0
    scrollOffset := 0 }

/-- `ensureVisible` from the source. -/
def ensureVisible (s : SelState) : SelState :=
  if s.highlightedIndex < s.scrollOffset then
    { s with scrollOffset := s.highlightedIndex }
  else if s.highlightedIndex ≥ s.scrollOffset + MAX_VISIBLE then
    { s with scrollOffset := s.highlightedIndex - MAX_VISIBLE + 1 }
  else s

/-- Outcome of one `handleInput` call: the component keeps running with an
updated state, or calls `done` with a value (`some`) or a cancel (`none`). -/
inductive SelStep where
  | cont (s : SelState)
  | finished (result : Option String)
deriving DecidableEq, Repr

/-- `handleInput` of `searchableSelect`.  Branch order as in the source:
escape/Ctrl+C, backspace, up/Ctrl+P, down/Ctrl+N, enter, then single
printable ASCII characters; everything else falls through unchanged.
In the enter branch the source indexes `filteredItems[highlightedIndex]`
under the guard `length > 0 ∧ highlightedIndex < length`; in every
reachable such state the index is also nonnegative, so the `List.get?`
model below agrees with the source there. -/
def selHandleInput (ff : List SearchableItem → String → List SearchableItem)
    (items : List SearchableItem) (k : KeyMatches) (raw : String)
    (s : SelState) : SelStep :=
  if k.escape || k.ctrlC then
    .finished none
  else if k.backspace then
    if s.searchText.length > 0 then
      .cont (applyFilter ff items { s with searchText := s.searchText.dropRight 1 })
    else
      .cont s
  else if k.up || k.ctrlP then
    .cont (ensureVisible { s with highlightedIndex := max 0 (s.highlightedIndex - 1) })
  else if k.down || k.ctrlN then
    let newIdx := min ((s.filteredItems.length : Int) - 1) (s.highlightedIndex + 1)
    .cont (ensureVisible { s with highlightedIndex := newIdx })
  else if k.enter then
    if 0 < s.filteredItems.length ∧ s.highlightedIndex < (s.filteredItems.length : Int) then
      .finished ((s.filteredItems.get? s.highlightedIndex.toNat).map (·.value))
    else
      .cont s
  else
    match raw.data with
    | [c] =>
        if ' ' ≤ c ∧ c ≤ '~' then
          .cont (applyFilter ff items { s with searchText := s.searchText.push c })
        else
          .cont s
    | _ => .cont s

/-- Run `searchableSelect` over a list of input events from a state,
returning `some` final state while the component is still open and `none`
once a terminal outcome was produced. -/
def selRunCont (ff : List SearchableItem → String → List SearchableItem)
    (items : List SearchableItem) :
    List (KeyMatches × String) → SelState → Option SelState
  | [], s => some s
  | e :: es, s =>
    match selHandleInput ff items e.1 e.2 s with
    | .cont s' => selRunCont ff items es s'
    | .finished _ => none

/-- Modelled from the spec: the external library function `fuzzyFilter`
(`@mariozechner/pi-tui`) is not part of this repository.  Per the spec's
FuzzyMatcher contract, for a non-empty query it keeps exactly the
candidates whose projected text contains the query's characters as an
in-order case-insensitive subsequence and excludes the rest, ordered best
score first with stable ties.  Only membership matters for the claims
below, so the kept candidates are left in their original (stable) order.
The projection is the one used at the call site:
`item.label ++ " " ++ item.value`. -/
def isSubseqCI : List Char → List Char → Bool
  | [], _ => true
  | _ :: _, [] => false
  | c :: cs, d :: ds =>
    if c.toLower = d.toLower then isSubseqCI cs ds else isSubseqCI (c :: cs) ds

/-- Modelled from the spec: membership behaviour of `pi-tui`'s
`fuzzyFilter` at the `searchableSelect` call site (see `isSubseqCI`). -/
def fuzzyFilterModel (items : List SearchableItem) (query : String) :
    List SearchableItem :=
  items.filter fun it => isSubseqCI query.data (it.label ++ " " ++ it.value).data

/-! ## Model-switcher wizard (`runModelSwitcher` in `model-switcher.ts`)

The wizard's collaborators (model registry, settings, thinking level,
`setModel` success, and the user's answer to each `searchableSelect`
step) are gathered into `SwitcherEnv`.  The observable behaviour is the
ordered list of external effects the flow performs: showing a selection
step, notifying, `pi.setModel`, `pi.setThinkingLevel`. -/

/-- A registry model entry (`ctx.modelRegistry` rows used by the source). -/
structure ModelInfo where
  provider : String
  id : String
  name : String
  reasoning : Bool
  input : List String
deriving DecidableEq, Repr

/-- `ProviderInfo` from the source. -/
structure ProviderInfo where
  name : String
  modelCount : Nat
deriving DecidableEq, Repr

/-- Observable external effects of the wizard. -/
inductive Effect where
  | showSelect (title : String)
  | notify (message severity : String)
  | setModel (provider id : String)
  | setThinkingLevel (level : String)
deriving DecidableEq, Repr

/-- The wizard's environment: one record per external read/write the flow
performs, plus the outcome the user produces at each selection step
(`none` models a cancelled `searchableSelect`). -/
structure SwitcherEnv where
  hasUI : Bool
  /-- `ctx.modelRegistry.getAvailable()` -/
  available : List ModelInfo
  /-- `SettingsManager.getEnabledModels()` (`none` = setting absent) -/
  enabledPatterns : Option (List String)
  /-- `ctx.model?.provider` -/
  curProvider : Option String
  /-- `ctx.model?.id` -/
  curModelId : Option String
  /-- `ctx.modelRegistry.find(provider, id)` -/
  registryFind : String → String → Option ModelInfo
  /-- `pi.getThinkingLevel()` -/
  thinkingLevel : String
  /-- the boolean result of `pi.setModel(...)` -/
  setModelOk : Bool
  /-- outcome of the step-1 `searchableSelect` (provider) -/
  answerProvider : Option String
  /-- outcome of the step-2 `searchableSelect` (model) -/
  answerModel : Option String
  /-- outcome of the step-3 `searchableSelect` (thinking level) -/
  answerThinking : Option String

/-- `getAvailableEnabledModels` from the source. -/
def getAvailableEnabledModels (env : SwitcherEnv) : List ModelInfo :=
  env.available.filter fun m =>
    isModelEnabled m.provider m.id (getEnabledModelSet env.enabledPatterns)

/-- `getProviders` from the source: provider names in first-appearance
order with their model counts, then sorted by name. -/
def getProviders (env : SwitcherEnv) : List ProviderInfo :=
  let models := getAvailableEnabledModels env
  let names := (models.map (·.provider)).eraseDups
  sortBy (fun a b => strLe a.name b.name)
    (names.map fun n =>
      { name := n, modelCount := (models.filter fun m => m.provider = n).length })

/-- `getModelsForProvider` from the source. -/
def getModelsForProvider (env : SwitcherEnv) (provider : String) : List ModelInfo :=
  sortBy (fun a b => strLe a.name b.name)
    ((getAvailableEnabledModels env).filter fun m => m.provider = provider)

/-- The apply phase at the end of `runModelSwitcher`: `pi.setModel`,
then either the missing-API-key warning, or the thinking-level write
(when the model supports reasoning) and the success notification. -/
def switcherApply (env : SwitcherEnv) (selectedProvider selectedModelId : String)
    (m : ModelInfo) (supportsReasoning : Bool) (selectedThinking : String) :
    List Effect :=
  Effect.setModel m.provider m.id ::
    (if !env.setModelOk then
      [Effect.notify ("No API key available for " ++ selectedProvider ++ "/" ++ selectedModelId) "warning"]
    else
      (if supportsReasoning then [Effect.setThinkingLevel selectedThinking] else []) ++
        [Effect.notify
          ("Switched to " ++ m.name ++
            (if supportsReasoning then " (thinking: " ++ selectedThinking ++ ")" else ""))
          "info"])

/-- `runModelSwitcher` from the source, as the list of effects it
performs.  `if (!selected) return` in the source treats both `null`
(cancel) and the empty string as falsy, hence the explicit `= ""` guards. -/
def runModelSwitcher (env : SwitcherEnv) : List Effect :=
  if !env.hasUI then []
  else
    let providers := getProviders env
    if providers = [] then [Effect.notify "No providers available" "warning"]
    else
      Effect.showSelect "Select Provider" ::
        match env.answerProvider with
        | none => []
        | some selectedProvider =>
          if selectedProvider = "" then []
          else
            let models := getModelsForProvider env selectedProvider
            if models = [] then
              [Effect.notify ("No models found for provider \"" ++ selectedProvider ++ "\"") "warning"]
            else
              Effect.showSelect ("Select Model (" ++ selectedProvider ++ ")") ::
                match env.answerModel with
                | none => []
                | some selectedModelId =>
                  if selectedModelId = "" then []
                  else
                    match env.registryFind selectedProvider selectedModelId with
                    | none =>
                      [Effect.notify
                        ("Model " ++ selectedProvider ++ "/" ++ selectedModelId ++ " not found")
                        "error"]
                    | some selectedModel =>
                      if selectedModel.reasoning then
                        Effect.showSelect ("Thinking Level (" ++ selectedModel.name ++ ")") ::
                          match env.answerThinking with
                          | none => []
                          | some thinkingChoice =>
                            if thinkingChoice = "" then []
                            else
                              switcherApply env selectedProvider selectedModelId
                                selectedModel true thinkingChoice
                      else
                        switcherApply env selectedProvider selectedModelId
                          selectedModel false env.thinkingLevel

/-! ## Leader-key chorded palette (`LeaderKeyOverlay` in `index.ts`)

State: the current view (root or inside a group) and the highlighted
index.  Raw input is modelled by the `matchesKey` classifications the
overlay tests (`LKKey`), the single-character result of `parseKey`
(`none` when `parseKey` returned `null` or a multi-character key name),
and the raw data string for the legacy printable fallback. -/

/-- An action entry (`ActionItem` in the source).  The `action` callback
is an opaque payload `α`. -/
structure LKAction (α : Type) where
  key : String
  label : String
  description : Option String := none
  act : α
deriving DecidableEq, Repr

/-- `ActionGroup` from the source. -/
structure LKGroup (α : Type) where
  key : String
  label : String
  items : List (LKAction α)
deriving DecidableEq, Repr

/-- `TopLevelEntry` from the source: a group or a direct action. -/
inductive TopLevelEntry (α : Type) where
  | group (g : LKGroup α)
  | action (key label : String) (description : Option String) (act : α)
deriving DecidableEq, Repr

/-- `View` from the source. -/
inductive LKView (α : Type) where
  | root
  | group (g : LKGroup α)
deriving DecidableEq, Repr

/-- The overlay's mutable state. -/
structure LKState (α : Type) where
  view : LKView α
  highlightedIndex : Int
deriving DecidableEq, Repr

/-- `matchesKey` classifications tested by `LeaderKeyOverlay.handleInput`. -/
structure LKKey where
  escape : Bool := false
  ctrlC : Bool := false
  backspace : Bool := false
  up : Bool := false
  down : Bool := false
  enter : Bool := false
  ret : Bool := false
deriving DecidableEq, Repr

/-- Outcome of one `handleInput` call of the overlay. -/
inductive LKStep (α : Type) where
  | cont (s : LKState α)
  | finished (result : Option (LKAction α))
deriving DecidableEq, Repr

/-- The keys of `currentItems` in the source (label/description of the
display rows are render-only and elided; `handleInput` uses only the
length of the row list and each row's `key`). -/
def currentKeys (entries : List (TopLevelEntry α)) : LKView α → List String
  | .root =>
    entries.map fun e =>
      match e with
      | .group g => g.key
      | .action k _ _ _ => k
  | .group g => g.items.map (·.key)

/-- The find predicate of `handleRootSelection`: does this top-level
entry carry this key? -/
def entryKeyIs (key : String) (e : TopLevelEntry α) : Bool :=
  match e with
  | .group g => g.key = key
  | .action k _ _ _ => k = key

/-- The find predicate inside a group: does this action carry this key? -/
def actionKeyIs (key : String) (a : LKAction α) : Bool :=
  a.key = key

/-- `handleRootSelection` from the source: find the first top-level entry
whose key matches; open it (group) or finish with it wrapped as an
`ActionItem` (direct action); unknown keys do nothing. -/
def handleRootSelection (entries : List (TopLevelEntry α)) (key : String)
    (s : LKState α) : LKStep α :=
  match entries.find? (entryKeyIs key) with
  | none => .cont s
  | some (.group g) => .cont { view := .group g, highlightedIndex := 0 }
  | some (.action k l d a) => .finished (some { key := k, label := l, description := d, act := a })

/-- Chord handling inside a group: find the action with this key, finish
with it if present, otherwise do nothing. -/
def handleGroupChord (g : LKGroup α) (key : String) (s : LKState α) : LKStep α :=
  match g.items.find? (actionKeyIs key) with
  | some a => .finished (some a)
  | none => .cont s

/-- The raw printable-character fallback at the end of
`LeaderKeyOverlay.handleInput` (legacy terminals). -/
def lkRawFallback (entries : List (TopLevelEntry α)) (raw : String)
    (s : LKState α) : LKStep α :=
  match raw.data with
  | [c] =>
    if ' ' ≤ c ∧ c ≤ '~' then
      let key := String.singleton c.toLower
      match s.view with
      | .root => handleRootSelection entries key s
      | .group g => handleGroupChord g key s
    else .cont s
  | _ => .cont s

/-- `LeaderKeyOverlay.handleInput` from the source.  Branch order:
escape/Ctrl+C, backspace, up, down, enter/return, then the chord-key
branch on `parseKey`'s single-character results `a`–`z`, then the raw
printable fallback. -/
def lkHandleInput (entries : List (TopLevelEntry α)) (k : LKKey)
    (parsed : Option Char) (raw : String) (s : LKState α) : LKStep α :=
  if k.escape || k.ctrlC then
    match s.view with
    | .group _ => .cont { view := .root, highlightedIndex := 0 }
    | .root => .finished none
  else if k.backspace then
    match s.view with
    | .group _ => .cont { view := .root, highlightedIndex := 0 }
    | .root => .finished none
  else if k.up then
    .cont { s with highlightedIndex := max 0 (s.highlightedIndex - 1) }
  else if k.down then
    let n := (currentKeys entries s.view).length
    .cont { s with highlightedIndex := min ((n : Int) - 1) (s.highlightedIndex + 1) }
  else if k.enter || k.ret then
    let items := currentKeys entries s.view
    if 0 ≤ s.highlightedIndex ∧ s.highlightedIndex < (items.length : Int) then
      match items.get? s.highlightedIndex.toNat with
      | none => .cont s
      | some itemKey =>
        match s.view with
        | .root => handleRootSelection entries itemKey s
        | .group g => handleGroupChord g itemKey s
    else .cont s
  else
    match parsed with
    | some c =>
      if 'a' ≤ c ∧ c ≤ 'z' then
        let key := String.singleton c.toLower
        match s.view with
        | .root => handleRootSelection entries key s
        | .group g => handleGroupChord g key s
      else
        lkRawFallback entries raw s
    | none => lkRawFallback entries raw s

/-! ## Favourite-models quick picker (`runFavouriteModels` in
`favourite-models.ts`)

The picker's only mutable state is `highlightedIndex`; the configured
favourites list is fixed for the lifetime of the overlay.  Raw input is
modelled like the leader-key overlay: `matchesKey` classifications (the
picker tests the same keys as `searchableSelect`, so `KeyMatches` is
reused), the single-character `parseKey` result, and the raw string. -/

/-- `FavouriteModelEntry` from the source. -/
structure FavouriteModelEntry where
  key : String
  label : String
  provider : String
  model : String
  thinking : Option String := none
deriving DecidableEq, Repr

/-- Outcome of one `handleInput` call of the favourites picker. -/
inductive FavStep where
  | cont (highlightedIndex : Int)
  | finished (result : Option FavouriteModelEntry)
deriving DecidableEq, Repr

/-- The direct-key find predicate of the favourites picker:
`f.key.toLowerCase() === pressedKey`. -/
def favKeyIs (pressedKey : Char) (f : FavouriteModelEntry) : Bool :=
  jsToLower f.key = String.singleton pressedKey

/-- `handleInput` of the favourites picker.  Branch order: escape/Ctrl+C,
backspace (cancel), up/Ctrl+P, down/Ctrl+N, enter, then direct key match:
`pressedKey` is the lower-cased single-character `parseKey` result, or
else the lower-cased raw character when it is printable ASCII; the first
favourite whose lower-cased key equals it is selected, and an unmatched
key does nothing. -/
def favHandleInput (favourites : List FavouriteModelEntry) (k : KeyMatches)
    (parsed : Option Char) (raw : String) (hi : Int) : FavStep :=
  if k.escape || k.ctrlC then
    .finished none
  else if k.backspace then
    .finished none
  else if k.up || k.ctrlP then
    .cont (max 0 (hi - 1))
  else if k.down || k.ctrlN then
    .cont (min ((favourites.length : Int) - 1) (hi + 1))
  else if k.enter then
    if 0 ≤ hi ∧ hi < (favourites.length : Int) then
      .finished (favourites.get? hi.toNat)
    else
      .cont hi
  else
    let keyChar : Option Char := parsed.map Char.toLower
    let rawChar : Option Char :=
      match raw.data with
      | [c] => if ' ' ≤ c ∧ c ≤ '~' then some c.toLower else none
      | _ => none
    match keyChar.orElse (fun _ => rawChar) with
    | none => .cont hi
    | some pressedKey =>
      match favourites.find? (favKeyIs pressedKey) with
      | some m => .finished (some m)
      | none => .cont hi

/-! ## Favourites preset loading (`loadFavourites` in `favourite-models.ts`)

`loadFavourites` reads `favourite-models.json`, parses it, checks
`Array.isArray`, filters structurally valid entries and truncates to
`MAX_FAVOURITES`; any exception anywhere in the `try` block (unreadable
file, invalid JSON, or a `TypeError` thrown by a property access on a
`null` array element during `.filter`) is caught and yields `[]`.
The file read and JSON parse are modelled by the `Option Json` input
(`none` = `readFileSync`/`JSON.parse` threw). -/

/-- A parsed JSON value. -/
inductive Json where
  | null
  | bool (b : Bool)
  | num (n : Int)
  | str (s : String)
  | arr (elems : List Json)
  | obj (fields : List (String × Json))

/-- `MAX_FAVOURITES` from the source. -/
def MAX_FAVOURITES : Nat := 8

/-- JavaScript property access `e[name]` on a parsed JSON value, for
non-`null` values: object fields by name (`JSON.parse` keeps the last
duplicate key, hence the reversed lookup), `undefined` (`none`) on
everything else.  Access on `null` throws and is handled separately in
`validEntry`. -/
def jsField : Json → String → Option Json
  | .obj fs, name => (fs.reverse).lookup name
  | _, _ => none

/-- `typeof e[name] === "string"` for a non-`null` value `e`. -/
def isStrField (e : Json) (name : String) : Bool :=
  match jsField e name with
  | some (.str _) => true
  | _ => false

/-- The filter predicate of `loadFavourites` on a non-`null` element:
`typeof e.key === "string" && e.key.length === 1 && typeof e.label ===
"string" && typeof e.provider === "string" && typeof e.model === "string"`. -/
def validEntryB (e : Json) : Bool :=
  (match jsField e "key" with
    | some (.str k) => decide (k.length = 1)
    | _ => false) &&
    isStrField e "label" && isStrField e "provider" && isStrField e "model"

/-- The filter predicate including JavaScript exception behaviour: a
`null` element throws `TypeError` on `e.key`; every other JSON value
yields `undefined` for a missing property without throwing. -/
def validEntry (e : Json) : Except Unit Bool :=
  match e with
  | .null => .error ()
  | _ => .ok (validEntryB e)

/-- `Array.prototype.filter` with the predicate of `loadFavourites`: the
predicate runs left to right on every element, and the first thrown
exception aborts the whole call. -/
def filterEntries : List Json → Except Unit (List Json)
  | [] => .ok []
  | e :: es =>
    match validEntry e with
    | .error u => .error u
    | .ok true =>
      match filterEntries es with
      | .error u => .error u
      | .ok rest => .ok (e :: rest)
    | .ok false => filterEntries es

/-- Whether a top-level `null` element occurs in the array (the condition
under which the filter of `loadFavourites` throws). -/
def containsNull : List Json → Bool
  | [] => false
  | .null :: _ => true
  | _ :: es => containsNull es

/-- `loadFavourites` from the source (the surviving raw JSON elements;
the TypeScript cast does not transform them). -/
def loadFavourites (input : Option Json) : List Json :=
  match input with
  | none => []
  | some parsed =>
    match parsed with
    | .arr elems =>
      match filterEntries elems with
      | .error _ => []
      | .ok kept => kept.take MAX_FAVOURITES
    | _ => []

/-! ## Theorems -/

/-- C2: the enabled-model allow-list check.  The glob pattern
`"anthropic/*"` matches the key `"anthropic/claude-x"` and not
`"openai/claude-x"`; an absent or empty allow-list enables every
provider/model pair; matching is case-insensitive on both sides; exact
entries and `?` globs are supported. -/
theorem c2_isModelEnabled_allowlist :
    isModelEnabled "anthropic" "claude-x" (getEnabledModelSet (some ["anthropic/*"])) = true
    ∧ isModelEnabled "openai" "claude-x" (getEnabledModelSet (some ["anthropic/*"])) = false
    ∧ (∀ provider modelId, isModelEnabled provider modelId (getEnabledModelSet none) = true)
    ∧ (∀ provider modelId, isModelEnabled provider modelId (getEnabledModelSet (some [])) = true)
    ∧ isModelEnabled "Anthropic" "CLAUDE-X" (getEnabledModelSet (some ["ANTHROPIC/*"])) = true
    ∧ isModelEnabled "OpenAI" "GPT-4" (getEnabledModelSet (some ["openai/gpt-4"])) = true
    ∧ isModelEnabled "anthropic" "opus-4" (getEnabledModelSet (some ["anthropic/opus-?"])) = true
    ∧ isModelEnabled "anthropic" "opus-45" (getEnabledModelSet (some ["anthropic/opus-?"])) = false :=
  ⟨by decide, by decide, fun _ _ => rfl, fun _ _ => rfl,
    by decide, by decide, by decide, by decide⟩

/-- C5: with an empty query, the filter step of `searchableSelect` is the
identity on the constructor-supplied items, whatever the fuzzy filter
does: `applyFilter` never consults `ff` and restores the original list in
its original order. -/
theorem c5_empty_query_identity (ff : List SearchableItem → String → List SearchableItem)
    (items filtered : List SearchableItem) (hi so : Int) :
    (applyFilter ff items
        { searchText := "", filteredItems := filtered,
          highlightedIndex := hi, scrollOffset := so }).filteredItems = items := by
  simp [applyFilter]

/-- Pushing a character never yields the empty string. -/
theorem push_ne_empty (s : String) (c : Char) : s.push c ≠ "" := by
  intro h
  have : (s.push c).data = "".data := by rw [h]
  simp [String.push] at this

/-- C6: query editing in `searchableSelect`.  Appending a printable
character re-filters through the fuzzy filter and resets the highlighted
index and scroll offset to 0; backspace on a non-empty query drops the
last character and re-filters the same way (restoring the original items
when the query becomes empty); backspace on an empty query leaves the
state untouched and produces no terminal outcome. -/
theorem c6_query_editing (ff : List SearchableItem → String → List SearchableItem)
    (items : List SearchableItem) (s : SelState) (k : KeyMatches) (c : Char)
    (raw : String) :
    (k.escape = false → k.ctrlC = false → k.backspace = false → k.up = false →
      k.ctrlP = false → k.down = false → k.ctrlN = false → k.enter = false →
      ' ' ≤ c → c ≤ '~' →
      selHandleInput ff items k (String.singleton c) s =
        .cont { searchText := s.searchText.push c,
                filteredItems := ff items (s.searchText.push c),
                highlightedIndex := 0, scrollOffset := 0 })
    ∧ (k.escape = false → k.ctrlC = false → k.backspace = true →
      0 < s.searchText.length →
      selHandleInput ff items k raw s =
        .cont { searchText := s.searchText.dropRight 1,
                filteredItems :=
                  if s.searchText.dropRight 1 = "" then items
                  else ff items (s.searchText.dropRight 1),
                highlightedIndex := 0, scrollOffset := 0 })
    ∧ (k.escape = false → k.ctrlC = false → k.backspace = true →
      s.searchText = "" →
      selHandleInput ff items k raw s = .cont s) := by
  refine ⟨?_, ?_, ?_⟩
  · intro h1 h2 h3 h4 h5 h6 h7 h8 hc1 hc2
    simp [selHandleInput, h1, h2, h3, h4, h5, h6, h7, h8, String.singleton, hc1, hc2,
      applyFilter, push_ne_empty]
  · intro h1 h2 h3 hq
    simp [selHandleInput, h1, h2, h3, applyFilter, Nat.not_eq_zero_of_lt hq]
  · intro h1 h2 h3 hq
    simp [selHandleInput, h1, h2, h3, hq]

/-- C10: inputs that are a single character outside the printable ASCII
range U+0020–U+007E and match none of the recognised control keys leave
the `searchableSelect` state unchanged and produce no terminal outcome. -/
theorem c10_nonprintable_ignored (ff : List SearchableItem → String → List SearchableItem)
    (items : List SearchableItem) (s : SelState) (k : KeyMatches) (c : Char)
    (raw : String)
    (h1 : k.escape = false) (h2 : k.ctrlC = false) (h3 : k.backspace = false)
    (h4 : k.up = false) (h5 : k.ctrlP = false) (h6 : k.down = false)
    (h7 : k.ctrlN = false) (h8 : k.enter = false)
    (hraw : raw.data = [c]) (hc : c < ' ' ∨ '~' < c) :
    selHandleInput ff items k raw s = .cont s := by
  have hcond : ¬ (' ' ≤ c ∧ c ≤ '~') := by
    rcases hc with hc | hc
    · exact fun h => absurd h.1 (not_le.mpr hc)
    · exact fun h => absurd h.2 (not_le.mpr hc)
  simp [selHandleInput, h1, h2, h3, h4, h5, h6, h7, h8, hraw, hcond]

/-- A one-element item list used to instantiate the searchable-select
theorems on concrete inputs. -/
def witItems : List SearchableItem := [{ value := "alpha", label := "Alpha" }]

/-- Witness for C6: concrete runs of the three query-editing branches. -/
theorem c6_query_editing_witness :
    (selHandleInput fuzzyFilterModel witItems {} (String.singleton 'x') (selInit witItems) =
      .cont { searchText := "x", filteredItems := [], highlightedIndex := 0, scrollOffset := 0 })
    ∧ (selHandleInput fuzzyFilterModel witItems { backspace := true } ""
        { searchText := "aa", filteredItems := [], highlightedIndex := 3, scrollOffset := 2 } =
      .cont { searchText := "a", filteredItems := witItems,
              highlightedIndex := 0, scrollOffset := 0 })
    ∧ selHandleInput fuzzyFilterModel witItems { backspace := true } "" (selInit witItems) =
      .cont (selInit witItems) :=
  ⟨((c6_query_editing fuzzyFilterModel witItems (selInit witItems) {} 'x' "").1
      rfl rfl rfl rfl rfl rfl rfl rfl (by decide) (by decide)).trans (by decide),
    ((c6_query_editing fuzzyFilterModel witItems
        { searchText := "aa", filteredItems := [], highlightedIndex := 3, scrollOffset := 2 }
        { backspace := true } 'x' "").2.1 rfl rfl rfl (by decide)).trans (by decide),
    (c6_query_editing fuzzyFilterModel witItems (selInit witItems)
        { backspace := true } 'x' "").2.2 rfl rfl rfl rfl⟩

/-- Witness for C10: the control character U+0001 is ignored. -/
theorem c10_nonprintable_ignored_witness :
    selHandleInput fuzzyFilterModel witItems {} (String.singleton (Char.ofNat 1))
      (selInit witItems) = .cont (selInit witItems) :=
  c10_nonprintable_ignored fuzzyFilterModel witItems (selInit witItems) {}
    (Char.ofNat 1) (String.singleton (Char.ofNat 1))
    rfl rfl rfl rfl rfl rfl rfl rfl rfl (Or.inl (by decide))

/-- The classification of a raw "down arrow" event. -/
def downKM : KeyMatches := { down := true }

/-- The classification of a raw "up arrow" event. -/
def upKM : KeyMatches := { up := true }

theorem ensureVisible_highlightedIndex (s : SelState) :
    (ensureVisible s).highlightedIndex = s.highlightedIndex := by
  unfold ensureVisible; split_ifs <;> rfl

theorem ensureVisible_filteredItems (s : SelState) :
    (ensureVisible s).filteredItems = s.filteredItems := by
  unfold ensureVisible; split_ifs <;> rfl

theorem ensureVisible_searchText (s : SelState) :
    (ensureVisible s).searchText = s.searchText := by
  unfold ensureVisible; split_ifs <;> rfl

/-- A "down" event only moves the highlight (clamped) and rescrolls. -/
theorem selHandleInput_down (ff : List SearchableItem → String → List SearchableItem)
    (items : List SearchableItem) (raw : String) (s : SelState) :
    selHandleInput ff items downKM raw s =
      .cont (ensureVisible { s with highlightedIndex := min ((s.filteredItems.length : Int) - 1) (s.highlightedIndex + 1) }) := by
  simp [selHandleInput, downKM]

/-- An "up" event only moves the highlight (clamped) and rescrolls. -/
theorem selHandleInput_up (ff : List SearchableItem → String → List SearchableItem)
    (items : List SearchableItem) (raw : String) (s : SelState) :
    selHandleInput ff items upKM raw s =
      .cont (ensureVisible
        { s with highlightedIndex := max 0 (s.highlightedIndex - 1) }) := by
  simp [selHandleInput, upKM]

/-- Any number of "down" events keeps the filtered list unchanged and the
highlighted index at most `length - 1`, provided it started there. -/
theorem selRun_down_clamped (ff : List SearchableItem → String → List SearchableItem)
    (items : List SearchableItem) (raw : String) :
    ∀ (n : Nat) (s s' : SelState),
      s.highlightedIndex ≤ (s.filteredItems.length : Int) - 1 →
      selRunCont ff items (List.replicate n (downKM, raw)) s = some s' →
      s'.filteredItems = s.filteredItems ∧
        s'.highlightedIndex ≤ (s.filteredItems.length : Int) - 1 := by
  intro n
  induction n with
  | zero =>
    intro s s' h hrun
    simp [selRunCont] at hrun
    subst hrun
    exact ⟨rfl, h⟩
  | succ m ih =>
    intro s s' h hrun
    rw [List.replicate_succ] at hrun
    simp only [selRunCont, selHandleInput_down] at hrun
    set u := ensureVisible { s with highlightedIndex := min ((s.filteredItems.length : Int) - 1) (s.highlightedIndex + 1) } with hu
    have hufi : u.filteredItems = s.filteredItems := by
      rw [hu, ensureVisible_filteredItems]
    have huhi : u.highlightedIndex =
        min ((s.filteredItems.length : Int) - 1) (s.highlightedIndex + 1) := by
      rw [hu, ensureVisible_highlightedIndex]
    have h' : u.highlightedIndex ≤ (u.filteredItems.length : Int) - 1 := by
      rw [hufi, huhi]; omega
    obtain ⟨hfi, hhi⟩ := ih u s' h' hrun
    rw [hufi] at hfi hhi
    exact ⟨hfi, hhi⟩

/-- C4: starting from any filter state satisfying the data-model invariant
(non-empty filtered list, highlight in range), pressing "down"
`filteredItems.length` times never advances the highlighted index past
`filteredItems.length - 1`, and a single "up" or "down" keeps the
highlighted index within `[0, filteredItems.length - 1]`. -/
theorem c4_navigation_clamps (ff : List SearchableItem → String → List SearchableItem)
    (items : List SearchableItem) (s s' t t' : SelState) (raw : String)
    (hne : s.filteredItems ≠ [])
    (h0 : 0 ≤ s.highlightedIndex)
    (hlt : s.highlightedIndex < (s.filteredItems.length : Int))
    (hrun : selRunCont ff items (List.replicate s.filteredItems.length (downKM, raw)) s
      = some s')
    (hup : selHandleInput ff items upKM raw s = .cont t)
    (hdn : selHandleInput ff items downKM raw s = .cont t') :
    s'.highlightedIndex ≤ (s.filteredItems.length : Int) - 1
    ∧ 0 ≤ t.highlightedIndex
    ∧ t.highlightedIndex ≤ (s.filteredItems.length : Int) - 1
    ∧ 0 ≤ t'.highlightedIndex
    ∧ t'.highlightedIndex ≤ (s.filteredItems.length : Int) - 1 := by
  have hlen : 1 ≤ (s.filteredItems.length : Int) := by
    have := List.length_pos.mpr hne
    omega
  have hdown := (selRun_down_clamped ff items raw s.filteredItems.length s s'
    (by omega) hrun).2
  rw [selHandleInput_up ff items raw s] at hup
  rw [selHandleInput_down ff items raw s] at hdn
  have ht : t = ensureVisible
      { s with highlightedIndex := max 0 (s.highlightedIndex - 1) } :=
    (SelStep.cont.injEq _ _).mp hup.symm
  have ht' : t' = ensureVisible { s with highlightedIndex := min ((s.filteredItems.length : Int) - 1) (s.highlightedIndex + 1) } :=
    (SelStep.cont.injEq _ _).mp hdn.symm
  have h1 : t.highlightedIndex = max 0 (s.highlightedIndex - 1) := by
    rw [ht, ensureVisible_highlightedIndex]
  have h2 : t'.highlightedIndex =
      min ((s.filteredItems.length : Int) - 1) (s.highlightedIndex + 1) := by
    rw [ht', ensureVisible_highlightedIndex]
  refine ⟨hdown, ?_, ?_, ?_, ?_⟩ <;> omega

/-- A two-element item list for the navigation witness. -/
def witItems2 : List SearchableItem :=
  [{ value := "alpha", label := "Alpha" }, { value := "beta", label := "Beta" }]

/-- Start state of the navigation witness. -/
def witState2 : SelState :=
  { searchText := "", filteredItems := witItems2, highlightedIndex := 0, scrollOffset := 0 }

/-- `witState2` after one or two "down" events. -/
def witState2Down : SelState :=
  { searchText := "", filteredItems := witItems2, highlightedIndex := 1, scrollOffset := 0 }

/-- Witness for C4: two "down" events from index 0 on a two-element list
stop at index 1; one "up" stays at 0. -/
theorem c4_navigation_clamps_witness :
    witState2Down.highlightedIndex ≤ (witState2.filteredItems.length : Int) - 1
    ∧ 0 ≤ witState2.highlightedIndex
    ∧ witState2.highlightedIndex ≤ (witState2.filteredItems.length : Int) - 1
    ∧ 0 ≤ witState2Down.highlightedIndex
    ∧ witState2Down.highlightedIndex ≤ (witState2.filteredItems.length : Int) - 1 :=
  c4_navigation_clamps fuzzyFilterModel witItems2 witState2 witState2Down
    witState2 witState2Down ""
    (by decide) (by decide) (by decide) (by decide) (by decide) (by decide)

/-- The corrected filter-state invariant of `searchableSelect`.  While the
filtered list is non-empty the claimed invariants hold exactly; while it
is empty, navigation can drive `highlightedIndex` and `scrollOffset` to
`-1` (JavaScript's `length - 1` on an empty array), so only the relaxed
bounds hold there. -/
def SelInv (s : SelState) : Prop :=
  if s.filteredItems = [] then
    -1 ≤ s.highlightedIndex ∧ s.highlightedIndex ≤ 0 ∧ -1 ≤ s.scrollOffset ∧
      s.scrollOffset ≤ s.highlightedIndex ∧ s.highlightedIndex < s.scrollOffset + 15
  else
    0 ≤ s.highlightedIndex ∧ s.highlightedIndex < (s.filteredItems.length : Int) ∧
      0 ≤ s.scrollOffset ∧ s.scrollOffset ≤ s.highlightedIndex ∧
      s.highlightedIndex < s.scrollOffset + 15

/-- Any state with index and scroll reset to 0 satisfies the invariant. -/
theorem selInv_reset (q : String) (F : List SearchableItem) :
    SelInv { searchText := q, filteredItems := F, highlightedIndex := 0, scrollOffset := 0 } := by
  unfold SelInv
  by_cases hF : F = []
  · simp [hF]
  · have : F.length ≠ 0 := fun h => hF (List.length_eq_zero.mp h)
    simp only [hF, if_neg, if_false]
    refine ⟨le_refl _, ?_, le_refl _, le_refl _, by norm_num⟩
    omega

/-- `ensureVisible` only rewrites `scrollOffset`, in one of three ways. -/
theorem ensureVisible_cases (t : SelState) :
    (ensureVisible t).searchText = t.searchText ∧
    (ensureVisible t).filteredItems = t.filteredItems ∧
    (ensureVisible t).highlightedIndex = t.highlightedIndex ∧
    ((ensureVisible t).scrollOffset = t.highlightedIndex ∨
      ((ensureVisible t).scrollOffset = t.highlightedIndex - 14 ∧
        t.scrollOffset + 15 ≤ t.highlightedIndex) ∨
      (ensureVisible t).scrollOffset = t.scrollOffset) ∧
    (ensureVisible t).scrollOffset ≤ (ensureVisible t).highlightedIndex ∧
    (ensureVisible t).highlightedIndex < (ensureVisible t).scrollOffset + 15 := by
  unfold ensureVisible MAX_VISIBLE
  split_ifs with h1 h2
  · refine ⟨rfl, rfl, rfl, Or.inl rfl, ?_, ?_⟩ <;> dsimp only <;> omega
  · refine ⟨rfl, rfl, rfl, Or.inr (Or.inl ⟨?_, ?_⟩), ?_, ?_⟩ <;> dsimp only <;> omega
  · refine ⟨rfl, rfl, rfl, Or.inr (Or.inr rfl), ?_, ?_⟩ <;> dsimp only <;> omega

/-- Moving the highlight to any value admissible for the current filtered
list, followed by `ensureVisible`, preserves the invariant. -/
theorem selInv_nav (s : SelState) (n : Int) (hInv : SelInv s)
    (hn : if s.filteredItems = [] then -1 ≤ n ∧ n ≤ 0
      else 0 ≤ n ∧ n < (s.filteredItems.length : Int)) :
    SelInv (ensureVisible { s with highlightedIndex := n }) := by
  obtain ⟨hst, hfi, hhi, hso, hw1, hw2⟩ :=
    ensureVisible_cases { s with highlightedIndex := n }
  dsimp only at hfi hhi hso
  unfold SelInv at hInv ⊢
  rw [hfi]
  by_cases hF : s.filteredItems = []
  · simp only [hF, if_true, List.length_nil, Nat.cast_zero] at hInv hn
    rw [if_pos hF]
    rcases hso with h | ⟨h, h'⟩ | h <;> omega
  · simp only [hF, if_false] at hInv hn
    rw [if_neg hF]
    rcases hso with h | ⟨h, h'⟩ | h <;> omega

/-- One `searchableSelect` input step preserves the invariant. -/
theorem selInv_step (ff : List SearchableItem → String → List SearchableItem)
    (items : List SearchableItem) (k : KeyMatches) (raw : String) (s s' : SelState)
    (hInv : SelInv s) (hstep : selHandleInput ff items k raw s = .cont s') :
    SelInv s' := by
  unfold selHandleInput at hstep
  by_cases h1 : (k.escape || k.ctrlC) = true
  · simp only [h1, if_true] at hstep
    exact absurd hstep (by simp)
  by_cases h2 : k.backspace = true
  · simp only [h1, h2, if_false, if_true] at hstep
    by_cases h2b : s.searchText.length > 0
    · rw [if_pos h2b] at hstep
      cases hstep
      exact selInv_reset _ _
    · rw [if_neg h2b] at hstep
      cases hstep
      exact hInv
  by_cases h3 : (k.up || k.ctrlP) = true
  · simp only [h1, h2, h3, if_false, if_true] at hstep
    cases hstep
    refine selInv_nav s (max 0 (s.highlightedIndex - 1)) hInv ?_
    unfold SelInv at hInv
    by_cases hF : s.filteredItems = [] <;>
      simp only [hF, if_true, if_false] at hInv ⊢ <;> omega
  by_cases h4 : (k.down || k.ctrlN) = true
  · simp only [h1, h2, h3, h4, if_false, if_true] at hstep
    cases hstep
    refine selInv_nav s
      (min ((s.filteredItems.length : Int) - 1) (s.highlightedIndex + 1)) hInv ?_
    unfold SelInv at hInv
    by_cases hF : s.filteredItems = []
    · simp [hF] at hInv ⊢
      omega
    · simp only [hF, if_false] at hInv ⊢
      omega
  by_cases h5 : k.enter = true
  · simp only [h1, h2, h3, h4, h5, if_false, if_true] at hstep
    by_cases h5b : 0 < s.filteredItems.length ∧
        s.highlightedIndex < (s.filteredItems.length : Int)
    · rw [if_pos h5b] at hstep
      exact absurd hstep (by simp)
    · rw [if_neg h5b] at hstep
      cases hstep
      exact hInv
  simp [h1, h2, h3, h4, h5] at hstep
  cases hraw : raw.data with
  | nil =>
    rw [hraw] at hstep
    dsimp only at hstep
    cases hstep
    exact hInv
  | cons c cs =>
    cases cs with
    | nil =>
      rw [hraw] at hstep
      dsimp only at hstep
      by_cases h6 : ' ' ≤ c ∧ c ≤ '~'
      · rw [if_pos h6] at hstep
        cases hstep
        exact selInv_reset _ _
      · rw [if_neg h6] at hstep
        cases hstep
        exact hInv
    | cons d rest =>
      rw [hraw] at hstep
      dsimp only at hstep
      cases hstep
      exact hInv

/-- The invariant holds along any run while the component stays open. -/
theorem selInv_run (ff : List SearchableItem → String → List SearchableItem)
    (items : List SearchableItem) :
    ∀ (evs : List (KeyMatches × String)) (s s' : SelState),
      SelInv s → selRunCont ff items evs s = some s' → SelInv s' := by
  intro evs
  induction evs with
  | nil =>
    intro s s' h hrun
    simp [selRunCont] at hrun
    subst hrun
    exact h
  | cons e es ih =>
    intro s s' h hrun
    unfold selRunCont at hrun
    cases hstep : selHandleInput ff items e.1 e.2 s with
    | cont u =>
      rw [hstep] at hrun
      exact ih u s' (selInv_step ff items e.1 e.2 s u h hstep) hrun
    | finished r =>
      rw [hstep] at hrun
      exact absurd hrun (by simp)

/-- C3 (amended): after every input event handled by a still-open
`searchableSelect`, the claimed invariants hold whenever `filteredItems`
is non-empty (`0 ≤ highlightedIndex < filteredItems.length`,
`0 ≤ scrollOffset ≤ highlightedIndex < scrollOffset + 15`); when
`filteredItems` is empty, navigation can leave `highlightedIndex` and
`scrollOffset` at `-1`, and only `-1 ≤ scrollOffset ≤ highlightedIndex ≤ 0`
with `highlightedIndex < scrollOffset + 15` holds. -/
theorem c3_filter_state_invariants (ff : List SearchableItem → String → List SearchableItem)
    (items : List SearchableItem) (evs : List (KeyMatches × String)) (s : SelState)
    (hrun : selRunCont ff items evs (selInit items) = some s) : SelInv s :=
  selInv_run ff items evs (selInit items) s (selInv_reset "" items) hrun

/-- Witness for C3 (amended): concrete run of the counterexample event
sequence — one unmatched query character then a "down" — ends in a state
satisfying the corrected invariant with both fields at `-1`. -/
theorem c3_filter_state_invariants_witness :
    SelInv { searchText := "~", filteredItems := [],
             highlightedIndex := -1, scrollOffset := -1 } :=
  c3_filter_state_invariants fuzzyFilterModel witItems [({}, "~"), (downKM, "")]
    { searchText := "~", filteredItems := [], highlightedIndex := -1, scrollOffset := -1 }
    (by decide)

/-- Counterexample for C3 as stated: after typing `~` (no matches, so
`filteredItems` is empty) and pressing "down", the reachable state has
`highlightedIndex = -1` (not 0) and `scrollOffset = -1` (not ≥ 0). -/
theorem c3_filter_state_counterexample :
    selRunCont fuzzyFilterModel witItems [({}, "~"), (downKM, "")] (selInit witItems) =
      some { searchText := "~", filteredItems := [],
             highlightedIndex := -1, scrollOffset := -1 }
    ∧ ¬ ((-1 : Int) = 0) ∧ ¬ ((0 : Int) ≤ -1) :=
  ⟨by decide, by decide, by decide⟩

/-- C7: the leader-key palette state machine.  From the root view, the
chord key of a group opens that group's view with the highlight reset;
the chord key of a direct action, or an action's key inside a group,
terminates with that action; backspace inside a group returns to the root
view with the highlight reset; escape at the root terminates with `null`. -/
theorem c7_palette_transitions {α : Type} (entries : List (TopLevelEntry α))
    (k : LKKey) (parsed : Option Char) (raw : String) (hi : Int) (c : Char)
    (g : LKGroup α) (key label : String) (description : Option String) (act : α)
    (a : LKAction α) :
    (k.escape = false → k.ctrlC = false → k.backspace = false → k.up = false →
      k.down = false → k.enter = false → k.ret = false →
      parsed = some c → 'a' ≤ c → c ≤ 'z' →
      entries.find? (entryKeyIs (String.singleton c.toLower)) = some (.group g) →
      lkHandleInput entries k parsed raw { view := .root, highlightedIndex := hi } =
        .cont { view := .group g, highlightedIndex := 0 })
    ∧ (k.escape = false → k.ctrlC = false → k.backspace = false → k.up = false →
      k.down = false → k.enter = false → k.ret = false →
      parsed = some c → 'a' ≤ c → c ≤ 'z' →
      entries.find? (entryKeyIs (String.singleton c.toLower)) =
        some (.action key label description act) →
      lkHandleInput entries k parsed raw { view := .root, highlightedIndex := hi } =
        .finished (some { key := key, label := label, description := description, act := act }))
    ∧ (k.escape = false → k.ctrlC = false → k.backspace = false → k.up = false →
      k.down = false → k.enter = false → k.ret = false →
      parsed = some c → 'a' ≤ c → c ≤ 'z' →
      g.items.find? (actionKeyIs (String.singleton c.toLower)) = some a →
      lkHandleInput entries k parsed raw { view := .group g, highlightedIndex := hi } =
        .finished (some a))
    ∧ (k.escape = false → k.ctrlC = false → k.backspace = true →
      lkHandleInput entries k parsed raw { view := .group g, highlightedIndex := hi } =
        .cont { view := .root, highlightedIndex := 0 })
    ∧ (k.escape = true →
      lkHandleInput entries k parsed raw { view := .root, highlightedIndex := hi } =
        .finished none) := by
  refine ⟨?_, ?_, ?_, ?_, ?_⟩
  · intro h1 h2 h3 h4 h5 h6 h7 hp hc1 hc2 hfind
    simp [lkHandleInput, h1, h2, h3, h4, h5, h6, h7, hp, hc1, hc2,
      handleRootSelection, hfind]
  · intro h1 h2 h3 h4 h5 h6 h7 hp hc1 hc2 hfind
    simp [lkHandleInput, h1, h2, h3, h4, h5, h6, h7, hp, hc1, hc2,
      handleRootSelection, hfind]
  · intro h1 h2 h3 h4 h5 h6 h7 hp hc1 hc2 hfind
    simp [lkHandleInput, h1, h2, h3, h4, h5, h6, h7, hp, hc1, hc2,
      handleGroupChord, hfind]
  · intro h1 h2 h3
    simp [lkHandleInput, h1, h2, h3]
  · intro h1
    simp [lkHandleInput, h1]

/-- The sample group used by the palette witness. -/
def witGroup : LKGroup Nat :=
  { key := "s", label := "Session",
    items := [{ key := "n", label := "New session", description := some "start fresh", act := 0 }] }

/-- The sample top-level entries used by the palette witness. -/
def witEntries : List (TopLevelEntry Nat) :=
  [.group witGroup, .action "m" "Model" none 1]

/-- Witness for C7: concrete transitions over `witEntries`. -/
theorem c7_palette_transitions_witness :
    (lkHandleInput witEntries {} (some 's') "" { view := .root, highlightedIndex := 0 } =
      .cont { view := .group witGroup, highlightedIndex := 0 })
    ∧ (lkHandleInput witEntries {} (some 'm') "" { view := .root, highlightedIndex := 0 } =
      .finished (some { key := "m", label := "Model", description := none, act := 1 }))
    ∧ (lkHandleInput witEntries {} (some 'n') "" { view := .group witGroup, highlightedIndex := 0 } =
      .finished (some { key := "n", label := "New session", description := some "start fresh", act := 0 }))
    ∧ (lkHandleInput witEntries { backspace := true } none ""
        { view := .group witGroup, highlightedIndex := 0 } =
      .cont { view := .root, highlightedIndex := 0 })
    ∧ (lkHandleInput witEntries { escape := true } none ""
        { view := .root, highlightedIndex := 0 } = .finished none) :=
  ⟨(c7_palette_transitions witEntries {} (some 's') "" 0 's' witGroup "" "" none 0
      { key := "", label := "", description := none, act := 0 }).1
      rfl rfl rfl rfl rfl rfl rfl rfl (by decide) (by decide) (by decide),
    (c7_palette_transitions witEntries {} (some 'm') "" 0 'm' witGroup "m" "Model" none 1
      { key := "", label := "", description := none, act := 0 }).2.1
      rfl rfl rfl rfl rfl rfl rfl rfl (by decide) (by decide) (by decide),
    (c7_palette_transitions witEntries {} (some 'n') "" 0 'n' witGroup "" "" none 0
      { key := "n", label := "New session", description := some "start fresh", act := 0 }).2.2.1
      rfl rfl rfl rfl rfl rfl rfl rfl (by decide) (by decide) (by decide),
    (c7_palette_transitions witEntries { backspace := true } none "" 0 'a' witGroup "" "" none 0
      { key := "", label := "", description := none, act := 0 }).2.2.2.1
      rfl rfl rfl,
    (c7_palette_transitions witEntries { escape := true } none "" 0 'a' witGroup "" "" none 0
      { key := "", label := "", description := none, act := 0 }).2.2.2.2
      rfl⟩

/-- C8: the favourites quick picker.  With no control key matched, a
pressed key matching no favourite leaves the state unchanged with no
terminal outcome; the configured key of a favourite terminates with that
favourite immediately (no enter); and backspace cancels the picker. -/
theorem c8_favourites_picker (favourites : List FavouriteModelEntry) (k : KeyMatches)
    (parsed : Option Char) (raw : String) (hi : Int) (c : Char)
    (f : FavouriteModelEntry) :
    (k.escape = false → k.ctrlC = false → k.backspace = false → k.up = false →
      k.ctrlP = false → k.down = false → k.ctrlN = false → k.enter = false →
      parsed = some c →
      favourites.find? (favKeyIs c.toLower) = none →
      favHandleInput favourites k parsed raw hi = .cont hi)
    ∧ (k.escape = false → k.ctrlC = false → k.backspace = false → k.up = false →
      k.ctrlP = false → k.down = false → k.ctrlN = false → k.enter = false →
      parsed = some c →
      favourites.find? (favKeyIs c.toLower) = some f →
      favHandleInput favourites k parsed raw hi = .finished (some f))
    ∧ (k.escape = false → k.ctrlC = false → k.backspace = true →
      favHandleInput favourites k parsed raw hi = .finished none) := by
  refine ⟨?_, ?_, ?_⟩
  · intro h1 h2 h3 h4 h5 h6 h7 h8 hp hfind
    simp [favHandleInput, h1, h2, h3, h4, h5, h6, h7, h8, hp, Option.orElse, hfind]
  · intro h1 h2 h3 h4 h5 h6 h7 h8 hp hfind
    simp [favHandleInput, h1, h2, h3, h4, h5, h6, h7, h8, hp, Option.orElse, hfind]
  · intro h1 h2 h3
    simp [favHandleInput, h1, h2, h3]

/-- The favourites list used by the quick-picker witness. -/
def witFavourites : List FavouriteModelEntry :=
  [{ key := "g", label := "GPT", provider := "openai", model := "gpt-4" }]

/-- Witness for C8: pressing `x` is a no-op, pressing `g` selects the
favourite immediately, and backspace cancels. -/
theorem c8_favourites_picker_witness :
    (favHandleInput witFavourites {} (some 'x') "" 0 = .cont 0)
    ∧ (favHandleInput witFavourites {} (some 'g') "" 0 =
      .finished (some { key := "g", label := "GPT", provider := "openai", model := "gpt-4" }))
    ∧ (favHandleInput witFavourites { backspace := true } none "" 0 = .finished none) :=
  ⟨(c8_favourites_picker witFavourites {} (some 'x') "" 0 'x'
      { key := "", label := "", provider := "", model := "" }).1
      rfl rfl rfl rfl rfl rfl rfl rfl rfl (by decide),
    (c8_favourites_picker witFavourites {} (some 'g') "" 0 'g'
      { key := "g", label := "GPT", provider := "openai", model := "gpt-4" }).2.1
      rfl rfl rfl rfl rfl rfl rfl rfl rfl (by decide),
    (c8_favourites_picker witFavourites { backspace := true } none "" 0 'a'
      { key := "", label := "", provider := "", model := "" }).2.2
      rfl rfl rfl⟩

/-- C1: cancellation short-circuits the model-switcher wizard.  If the
provider, model, or thinking-level pick yields `null`, the flow's whole
effect trace is exactly the selection steps already shown: no later step
is shown, no `setModel` or `setThinkingLevel` effect occurs, and no
notification is emitted. -/
theorem c1_wizard_cancellation (env : SwitcherEnv) (p mid : String) (m : ModelInfo)
    (hUI : env.hasUI = true) :
    (getProviders env ≠ [] → env.answerProvider = none →
      runModelSwitcher env = [Effect.showSelect "Select Provider"])
    ∧ (getProviders env ≠ [] → env.answerProvider = some p → p ≠ "" →
      getModelsForProvider env p ≠ [] → env.answerModel = none →
      runModelSwitcher env =
        [Effect.showSelect "Select Provider",
         Effect.showSelect ("Select Model (" ++ p ++ ")")])
    ∧ (getProviders env ≠ [] → env.answerProvider = some p → p ≠ "" →
      getModelsForProvider env p ≠ [] → env.answerModel = some mid → mid ≠ "" →
      env.registryFind p mid = some m → m.reasoning = true →
      env.answerThinking = none →
      runModelSwitcher env =
        [Effect.showSelect "Select Provider",
         Effect.showSelect ("Select Model (" ++ p ++ ")"),
         Effect.showSelect ("Thinking Level (" ++ m.name ++ ")")]) := by
  refine ⟨?_, ?_, ?_⟩
  · intro hne ha
    simp [runModelSwitcher, hUI, hne, ha]
  · intro hne ha hp hm hb
    simp [runModelSwitcher, hUI, hne, ha, hp, hm, hb]
  · intro hne ha hp hm hb hmid hfind hr ht
    simp [runModelSwitcher, hUI, hne, ha, hp, hm, hb, hmid, hfind, hr, ht]

/-- The registry model of the wizard witness. -/
def witModelA : ModelInfo :=
  { provider := "anthropic", id := "claude-x", name := "Claude X",
    reasoning := true, input := ["text", "image"] }

/-- Wizard environment in which the provider pick is cancelled. -/
def witEnv1 : SwitcherEnv :=
  { hasUI := true, available := [witModelA], enabledPatterns := none,
    curProvider := none, curModelId := none,
    registryFind := fun p i =>
      if p = "anthropic" ∧ i = "claude-x" then some witModelA else none,
    thinkingLevel := "off", setModelOk := true,
    answerProvider := none, answerModel := none, answerThinking := none }

/-- Wizard environment in which the model pick is cancelled. -/
def witEnv2 : SwitcherEnv := { witEnv1 with answerProvider := some "anthropic" }

/-- Wizard environment in which the thinking-level pick is cancelled. -/
def witEnv3 : SwitcherEnv := { witEnv2 with answerModel := some "claude-x" }

/-- Witness for C1: concrete cancelled runs at each of the three steps. -/
theorem c1_wizard_cancellation_witness :
    (runModelSwitcher witEnv1 = [Effect.showSelect "Select Provider"])
    ∧ (runModelSwitcher witEnv2 =
      [Effect.showSelect "Select Provider", Effect.showSelect "Select Model (anthropic)"])
    ∧ (runModelSwitcher witEnv3 =
      [Effect.showSelect "Select Provider", Effect.showSelect "Select Model (anthropic)",
       Effect.showSelect "Thinking Level (Claude X)"]) :=
  ⟨((c1_wizard_cancellation witEnv1 "" "" witModelA rfl).1
      (by decide) rfl).trans (by decide),
    ((c1_wizard_cancellation witEnv2 "anthropic" "" witModelA rfl).2.1
      (by decide) rfl (by decide) (by decide) rfl).trans (by decide),
    ((c1_wizard_cancellation witEnv3 "anthropic" "claude-x" witModelA rfl).2.2
      (by decide) rfl (by decide) (by decide) rfl (by decide) (by decide) rfl rfl).trans
      (by decide)⟩

/-- A non-`null` element never throws in the filter predicate. -/
theorem validEntry_not_null (e : Json) (h : e ≠ .null) :
    validEntry e = .ok (validEntryB e) := by
  cases e <;> first | exact absurd rfl h | rfl

/-- `containsNull` ignores a non-`null` head. -/
theorem containsNull_cons (e : Json) (es : List Json) (h : e ≠ .null) :
    containsNull (e :: es) = containsNull es := by
  cases e <;> first | exact absurd rfl h | rfl

/-- Without top-level `null` elements the filter succeeds and keeps
exactly the structurally valid entries, in order. -/
theorem filterEntries_no_null (xs : List Json) (h : containsNull xs = false) :
    filterEntries xs = .ok (xs.filter validEntryB) := by
  induction xs with
  | nil => rfl
  | cons e es ih =>
    have he : e ≠ .null := by
      intro he
      subst he
      simp [containsNull] at h
    have h' : containsNull es = false := by
      rw [containsNull_cons e es he] at h
      exact h
    unfold filterEntries
    rw [validEntry_not_null e he]
    by_cases hb : validEntryB e = true
    · simp [hb, ih h', List.filter_cons_of_pos]
    · have hb' : validEntryB e = false := by
        cases hv : validEntryB e
        · rfl
        · exact absurd hv hb
      simp [hb', ih h', List.filter_cons_of_neg]

/-- A top-level `null` element makes the filter throw. -/
theorem filterEntries_with_null (xs : List Json) (h : containsNull xs = true) :
    filterEntries xs = .error () := by
  induction xs with
  | nil => simp [containsNull] at h
  | cons e es ih =>
    by_cases he : e = .null
    · subst he
      rfl
    · have h' : containsNull es = true := by
        rw [containsNull_cons e es he] at h
        exact h
      unfold filterEntries
      rw [validEntry_not_null e he]
      cases hb : validEntryB e <;> simp [ih h']

/-- C9 (amended): `loadFavourites` never yields more than 8 entries and
returns `[]` when the file is unreadable, not valid JSON, or not an
array.  On an array without top-level `null` elements it drops every
malformed entry and truncates to 8.  An array containing a `null`
element, however, makes the whole load return `[]` (the property access
in the filter throws and the catch-all returns the empty list), instead
of dropping just that element. -/
theorem c9_load_favourites (input : Option Json) (xs : List Json) (b : Bool)
    (n : Int) (s : String) (fs : List (String × Json)) :
    ((loadFavourites input).length ≤ MAX_FAVOURITES)
    ∧ (loadFavourites none = [])
    ∧ (loadFavourites (some .null) = [] ∧ loadFavourites (some (.bool b)) = []
      ∧ loadFavourites (some (.num n)) = [] ∧ loadFavourites (some (.str s)) = []
      ∧ loadFavourites (some (.obj fs)) = [])
    ∧ (containsNull xs = false →
      loadFavourites (some (.arr xs)) = (xs.filter validEntryB).take MAX_FAVOURITES)
    ∧ (containsNull xs = true → loadFavourites (some (.arr xs)) = []) := by
  refine ⟨?_, rfl, ⟨rfl, rfl, rfl, rfl, rfl⟩, ?_, ?_⟩
  · cases input with
    | none => simp [loadFavourites, MAX_FAVOURITES]
    | some j =>
      cases j <;> simp [loadFavourites, MAX_FAVOURITES]
      case arr elems =>
        cases hf : filterEntries elems with
        | error u => simp
        | ok kept => simp [List.length_take]
  · intro h
    simp [loadFavourites, filterEntries_no_null xs h]
  · intro h
    simp [loadFavourites, filterEntries_with_null xs h]

/-- A structurally valid favourites entry. -/
def goodFav : Json :=
  .obj [("key", .str "g"), ("label", .str "GPT"),
    ("provider", .str "openai"), ("model", .str "gpt-4")]

/-- Witness for C9 (amended): a valid entry survives next to a malformed
non-`null` entry, and a `null` element empties the whole load. -/
theorem c9_load_favourites_witness :
    (loadFavourites (some (.arr [goodFav, .str "junk"])) =
      ([goodFav, .str "junk"].filter validEntryB).take MAX_FAVOURITES)
    ∧ loadFavourites (some (.arr [goodFav, Json.null])) = [] :=
  ⟨(c9_load_favourites (some (.arr [goodFav, .str "junk"])) [goodFav, .str "junk"]
      false 0 "" []).2.2.2.1 rfl,
    (c9_load_favourites (some (.arr [goodFav, Json.null])) [goodFav, Json.null]
      false 0 "" []).2.2.2.2 rfl⟩

/-- Counterexample for C9 as stated: `goodFav` is well formed and loads
alone, but adding the malformed element `null` does not merely drop that
element — the whole load yields `[]`, losing `goodFav` too. -/
theorem c9_load_favourites_counterexample :
    validEntryB goodFav = true
    ∧ loadFavourites (some (.arr [goodFav])) = [goodFav]
    ∧ loadFavourites (some (.arr [goodFav, Json.null])) = [] :=
  ⟨rfl, rfl, rfl⟩

end PiExt
